import Mathlib

set_option maxHeartbeats 1000000

/- Shallow embedding of the batch captioning pipeline of ImagesCaptionGUI,
   translated from the BatchProcessThread class of src/main_window.py
   (constructor and run method).  File-system reads, the HTTP round trip,
   the sidecar write and signal emission are the points where the thread
   touches its environment; they are supplied per image through an
   ImageEnv record.  Reading the image file and base64-encoding its bytes
   is modelled as one environment-supplied operation returning the encoded
   text, since both statements sit in the same per-image try block and
   fail the same way. -/

/-- Characters stripped by Python str.strip with no argument
    (the ASCII whitespace set). -/
def pyWhitespace (c : Char) : Bool :=
  c = ' ' || c = '\t' || c = '\n' || c = '\r' || c.toNat = 11 || c.toNat = 12

/-- Python str.strip with no argument: drop leading and trailing whitespace. -/
def pyStrip (s : String) : String :=
  String.mk (((s.toList.dropWhile pyWhitespace).reverse.dropWhile pyWhitespace).reverse)

/-- Python s.rstrip applied to the slash character: drop every trailing slash. -/
def rstripSlash (s : String) : String :=
  String.mk ((s.toList.reverse.dropWhile (fun c => c = '/')).reverse)

/-- Index of the last occurrence of a character in a list, as in Python rfind. -/
def rfindIdx (c : Char) : List Char → Option Nat
  | [] => none
  | x :: xs =>
    match rfindIdx c xs with
    | some i => some (i + 1)
    | none => if x = c then some 0 else none

/-- Python os.path.splitext(p)[0]: the path with its last extension removed;
    a dot inside the leading run of dots of the basename does not start an
    extension (mirrors the CPython genericpath implementation). -/
def splitextRoot (p : String) : String :=
  let cs := p.toList
  match rfindIdx '.' cs with
  | none => p
  | some dotIdx =>
    let fIdx : Nat := match rfindIdx '/' cs with | some i => i + 1 | none => 0
    if fIdx ≤ dotIdx then
      if ((cs.drop fIdx).take (dotIdx - fIdx)).any (fun c => c ≠ '.') then
        String.mk (cs.take dotIdx)
      else p
    else p

/-- Python os.path.basename for slash-separated paths. -/
def pyBasename (p : String) : String :=
  match rfindIdx '/' p.toList with
  | some i => String.mk (p.toList.drop (i + 1))
  | none => p

/-- One element of the choices array of a chat-completions response.
    The content field is the value of choice.message.content;
    none models a body where the message or content key is missing, in
    which case the subscripting in the source raises and the per-image
    handler catches. -/
structure Choice where
  content : Option String
deriving DecidableEq

/-- A parsed 200 response body.  choices = none models a JSON object with
    no choices key. -/
structure ApiResult where
  choices : Option (List Choice)
deriving DecidableEq

/-- An HTTP response: status code plus the result of response.json();
    jsonBody = none models a body that is not valid JSON, so that
    response.json() raises inside the per-image try block. -/
structure HttpResponse where
  status : Nat
  jsonBody : Option ApiResult
deriving DecidableEq

/-- The environment one loop iteration runs against.
    tagFile is the state of the file at splitextRoot path ++ tags_format:
    none = the file does not exist, some none = it exists but reading it
    raises, some (some t) = it exists and reads as t.
    imageData: none = opening or reading the image file raises
    (os.path.getsize or open in the source), some b = the base64 text
    obtained from the image bytes.
    response: none = requests.post raises, some r = the response.
    writeOk: whether opening and writing the caption sidecar succeeds.
    emitFail: some msg = the progress signal emission raises with message
    msg; this is the only per-iteration statement outside the per-image
    try block, so such an exception escapes to the outer handler. -/
structure ImageEnv where
  path : String
  tagFile : Option (Option String)
  imageData : Option String
  response : Option HttpResponse
  writeOk : Bool
  emitFail : Option String
deriving DecidableEq

/-- One element of the content array of the user message. -/
inductive ContentPart where
  | imageUrl (url : String)
  | text (t : String)
deriving DecidableEq

/-- Message content: either a plain string or an array of parts. -/
inductive MsgContent where
  | str (s : String)
  | parts (ps : List ContentPart)
deriving DecidableEq

/-- A chat message of the request body. -/
structure Message where
  role : String
  content : MsgContent
deriving DecidableEq

/-- The request body: the messages key plus the keys spread from
    sampling_config at top level (the latter kept as an opaque
    association list of rendered values). -/
structure Payload where
  messages : List Message
  extra : List (String × String)
deriving DecidableEq

/-- The configuration the constructor stores on the thread.  pfx holds
    self.prefix, which the constructor strips; initThread below performs
    that stripping. -/
structure BatchCfg where
  apiUrl : String
  samplingConfig : List (String × String)
  useTags : Bool
  pfx : String
  tagsFormat : String
  captionFormat : String
deriving DecidableEq

/-- The mutable attributes the run method touches: self.user_prompt is
    only read, self.results is updated per successful image. -/
structure ThreadSt where
  userPrompt : String
  results : List (String × String)
deriving DecidableEq

/-- The constructor of BatchProcessThread: strips the prefix keyword
    argument before storing it. -/
def initThread (apiUrl : String) (sampling : List (String × String)) (useTags : Bool)
    (rawPfx : String) (tagsFormat captionFormat : String) : BatchCfg :=
  { apiUrl := apiUrl, samplingConfig := sampling, useTags := useTags,
    pfx := pyStrip rawPfx, tagsFormat := tagsFormat, captionFormat := captionFormat }

/-- Observable events of one run: requests sent, sidecar writes, and the
    three Qt signals. -/
inductive Ev where
  | req (url : String) (payload : Payload)
  | write (path content : String)
  | progress (i total : Nat)
  | finished (results : List (String × String))
  | error (msg : String)
deriving DecidableEq

/-- Python dict assignment d[k] = v: replace the entry in place when the
    key exists, append otherwise (insertion order preserved).  A dict never
    holds a duplicate key, so replacing the first occurrence is exact. -/
def dictSet : List (String × String) → String → String → List (String × String)
  | [], k, v => [(k, v)]
  | (a, b) :: t, k, v => if a = k then (k, v) :: t else (a, b) :: dictSet t k v

/-- Lookup in the association-list rendering of a Python dict. -/
def dlookup (d : List (String × String)) (k : String) : Option String :=
  match d with
  | [] => none
  | (a, b) :: t => if a = k then some b else dlookup t k

/-- The prefix application of the source: when self.prefix is non-empty
    the caption becomes prefix, newline, caption. -/
def applyPfx (p c : String) : String := if p = "" then c else p ++ "\n" ++ c

/-- The text appended to the prompt when a tag sidecar is read. -/
def tagAug (t : String) : String :=
  " Also here are booru tags for better understanding of the picture, you can use them as reference."
    ++ " <tags>\n" ++ t ++ "\n</tags>"

/-- The prompt built at the top of each iteration: a fresh local starting
    from self.user_prompt, augmented when use_tags is set and the tag
    sidecar exists and reads successfully; a read failure is caught by the
    inner handler and leaves the prompt untouched. -/
def promptFor (userPrompt : String) (cfg : BatchCfg) (e : ImageEnv) : String :=
  if cfg.useTags then
    match e.tagFile with
    | some (some t) => userPrompt ++ tagAug (pyStrip t)
    | _ => userPrompt
  else userPrompt

/-- The caption sidecar path: splitext(image_path)[0] + caption_format. -/
def capPath (cfg : BatchCfg) (e : ImageEnv) : String :=
  splitextRoot e.path ++ cfg.captionFormat

/-- The request URL of the batch path: self.api_url.rstrip plus the fixed
    suffix, appended unconditionally. -/
def requestUrl (cfg : BatchCfg) : String :=
  rstripSlash cfg.apiUrl ++ "/v1/chat/completions"

/-- The request body the loop builds: a system message announcing the
    position of the image, then the user message with the image part and
    the text part, with sampling_config spread at top level. -/
def mkPayload (cfg : BatchCfg) (i total : Nat) (e : ImageEnv) (prompt b64 : String) : Payload :=
  { messages := [
      { role := "system",
        content := MsgContent.str
          ("Processing image " ++ toString i ++ " of " ++ toString total ++ ": "
            ++ pyBasename e.path) },
      { role := "user",
        content := MsgContent.parts [
          ContentPart.imageUrl ("data:image/jpeg;base64," ++ b64),
          ContentPart.text prompt ] } ],
    extra := cfg.samplingConfig }

/-- One iteration of the loop body, i.e. the per-image try block of run.
    Returns the events produced, the updated thread state, and whether an
    exception was caught by the per-image handler (in which case the
    source executes continue, skipping the progress emission). -/
def processImage (cfg : BatchCfg) (total i : Nat) (e : ImageEnv) (st : ThreadSt) :
    List Ev × ThreadSt × Bool :=
  match e.imageData with
  | none => ([], st, true)
  | some b64 =>
    let payload := mkPayload cfg i total e (promptFor st.userPrompt cfg e) b64
    match e.response with
    | none => ([Ev.req (requestUrl cfg) payload], st, true)
    | some resp =>
      if resp.status = 200 then
        match resp.jsonBody with
        | none => ([Ev.req (requestUrl cfg) payload], st, true)
        | some body =>
          match body.choices with
          | some (c :: _) =>
            match c.content with
            | none => ([Ev.req (requestUrl cfg) payload], st, true)
            | some cap0 =>
              let cap := applyPfx cfg.pfx cap0
              if e.writeOk then
                ([Ev.req (requestUrl cfg) payload, Ev.write (capPath cfg e) cap],
                 { st with results := dictSet st.results e.path cap }, false)
              else
                ([Ev.req (requestUrl cfg) payload],
                 { st with results := dictSet st.results e.path cap }, true)
          | _ => ([Ev.req (requestUrl cfg) payload], st, false)
      else ([Ev.req (requestUrl cfg) payload], st, false)

/-- The loop of run from image index i on.  The third component is some
    msg when an exception escaped the per-image boundary (the progress
    emission raised), aborting the loop. -/
def runFrom (cfg : BatchCfg) (total : Nat) :
    Nat → List ImageEnv → ThreadSt → List Ev × ThreadSt × Option String
  | _, [], st => ([], st, none)
  | i, e :: rest, st =>
    let s := processImage cfg total i e st
    if s.2.2 then
      let r := runFrom cfg total (i + 1) rest s.2.1
      (s.1 ++ r.1, r.2)
    else
      match e.emitFail with
      | some msg => (s.1, s.2.1, some msg)
      | none =>
        let r := runFrom cfg total (i + 1) rest s.2.1
        (s.1 ++ Ev.progress i total :: r.1, r.2)

/-- The initial thread state: results starts empty. -/
def initSt (up : String) : ThreadSt := { userPrompt := up, results := [] }

/-- The whole run method: iterate the images, then emit finished with the
    results, or emit error with the message of an exception that escaped
    the per-image boundary. -/
def runBatch (cfg : BatchCfg) (up : String) (envs : List ImageEnv) : List Ev :=
  let r := runFrom cfg envs.length 1 envs (initSt up)
  match r.2.2 with
  | some msg => r.1 ++ [Ev.error msg]
  | none => r.1 ++ [Ev.finished r.2.1.results]

/-- The final value of self.results after the loop. -/
def batchResults (cfg : BatchCfg) (up : String) (envs : List ImageEnv) :
    List (String × String) :=
  (runFrom cfg envs.length 1 envs (initSt up)).2.1.results

/-- Progress events of a trace. -/
def evProgress (evs : List Ev) : List (Nat × Nat) :=
  evs.filterMap fun ev => match ev with | Ev.progress i t => some (i, t) | _ => none

/-- Sidecar writes of a trace. -/
def evWrites (evs : List Ev) : List (String × String) :=
  evs.filterMap fun ev => match ev with | Ev.write p c => some (p, c) | _ => none

/-- URLs of the requests of a trace. -/
def evReqUrls (evs : List Ev) : List String :=
  evs.filterMap fun ev => match ev with | Ev.req u _ => some u | _ => none

/-- Request bodies of a trace. -/
def evReqPayloads (evs : List Ev) : List Payload :=
  evs.filterMap fun ev => match ev with | Ev.req _ p => some p | _ => none

/-- Error signals of a trace. -/
def evErrors (evs : List Ev) : List String :=
  evs.filterMap fun ev => match ev with | Ev.error m => some m | _ => none

/-- Finished signals of a trace. -/
def evFinished (evs : List Ev) : List (List (String × String)) :=
  evs.filterMap fun ev => match ev with | Ev.finished r => some r | _ => none

/-- The text carried by a text content part. -/
def partText : ContentPart → Option String
  | ContentPart.text t => some t
  | _ => none

/-- The texts of the text parts of the user messages of a body. -/
def payloadTexts (p : Payload) : List String :=
  (p.messages.map fun m =>
    if m.role = "user" then
      match m.content with
      | MsgContent.parts ps => ps.filterMap partText
      | _ => []
    else []).flatten

/-- The prompt texts sent by the requests of a trace. -/
def evReqTexts (evs : List Ev) : List String :=
  (evs.filterMap fun ev => match ev with
    | Ev.req _ p => some (payloadTexts p)
    | _ => none).flatten

/-- The responses the source treats as producing no caption: a non-200
    status, a 200 body that is not valid JSON, or a 200 body whose choices
    list is absent or empty. -/
def respNoCaption (resp : HttpResponse) : Prop :=
  resp.status ≠ 200 ∨ resp.jsonBody = none ∨
    ∃ b, resp.jsonBody = some b ∧ (b.choices = none ∨ b.choices = some [])

/-- The raw caption the loop extracts for an image, when it extracts one. -/
def respCaption (e : ImageEnv) : Option String :=
  match e.imageData, e.response with
  | some _, some resp =>
    if resp.status = 200 then
      match resp.jsonBody with
      | some body =>
        match body.choices with
        | some (c :: _) => c.content
        | _ => none
      | none => none
    else none
  | _, _ => none

/-- The caption recorded and written for an image, prefix applied. -/
def stepCaption (cfg : BatchCfg) (e : ImageEnv) : Option String :=
  (respCaption e).map (applyPfx cfg.pfx)

/-- Whether the per-image handler catches an exception for this image. -/
def stepCaught (e : ImageEnv) : Bool :=
  match e.imageData with
  | none => true
  | some _ =>
    match e.response with
    | none => true
    | some resp =>
      if resp.status = 200 then
        match resp.jsonBody with
        | none => true
        | some body =>
          match body.choices with
          | some (c :: _) =>
            match c.content with
            | none => true
            | some _ => !e.writeOk
          | _ => false
      else false

/-- The update one iteration applies to self.results. -/
def stepResults (cfg : BatchCfg) (e : ImageEnv) (r : List (String × String)) :
    List (String × String) :=
  match stepCaption cfg e with
  | some v => dictSet r e.path v
  | none => r

/-- The request and write events one iteration produces. -/
def stepEvs (cfg : BatchCfg) (total i : Nat) (e : ImageEnv) (up : String) : List Ev :=
  match e.imageData with
  | none => []
  | some b64 =>
    Ev.req (requestUrl cfg) (mkPayload cfg i total e (promptFor up cfg e) b64) ::
      (match stepCaption cfg e with
       | some v => if e.writeOk then [Ev.write (capPath cfg e) v] else []
       | none => [])

/-- The full event list of a loop that hits no exception escaping the
    per-image boundary. -/
def traceOf (cfg : BatchCfg) (total : Nat) : Nat → String → List ImageEnv → List Ev
  | _, _, [] => []
  | i, up, e :: rest =>
    if stepCaught e then stepEvs cfg total i e up ++ traceOf cfg total (i + 1) up rest
    else stepEvs cfg total i e up ++ Ev.progress i total :: traceOf cfg total (i + 1) up rest

/-- The accumulated results of such a loop. -/
def foldResults (cfg : BatchCfg) : List ImageEnv → List (String × String) → List (String × String)
  | [], r => r
  | e :: rest, r => foldResults cfg rest (stepResults cfg e r)

/-- The sidecar writes a list of images produces when every write succeeds. -/
def writesOf (cfg : BatchCfg) (envs : List ImageEnv) : List (String × String) :=
  envs.filterMap fun e => (stepCaption cfg e).map (fun v => (capPath cfg e, v))

/-- Whether a string ends with a given suffix. -/
def endsWithStr (s suf : String) : Bool := suf.toList.isSuffixOf s.toList

/-- URL normalization as claim C8 describes it: strip trailing slashes,
    then append the suffix only when not already present.  This follows
    the wording of the spec, for comparison with requestUrl above. -/
def specRequestUrl (base : String) : String :=
  if endsWithStr (rstripSlash base) ("/v1/chat/completions") then rstripSlash base
  else rstripSlash base ++ "/v1/chat/completions"

/-- The coupling claim C4 states, in the words of the spec: a sidecar
    write exists for an image exactly when the final results mapping has
    an entry for it, and any write to its sidecar path carries exactly the
    mapped value. -/
def sidecarIffResult (cfg : BatchCfg) (up : String) (envs : List ImageEnv) : Prop :=
  ∀ e ∈ envs,
    ((evWrites (runBatch cfg up envs)).any (fun w => w.1 == capPath cfg e) =
      (dlookup (batchResults cfg up envs) e.path).isSome) ∧
    ∀ w ∈ evWrites (runBatch cfg up envs), w.1 = capPath cfg e →
      dlookup (batchResults cfg up envs) e.path = some w.2

/-- The body shape claim C6 states, in the words of the spec: the messages
    list is the user message alone, and the rest of the body is exactly
    the sampling configuration. -/
def c6ClaimBody (cfg : BatchCfg) (p : Payload) : Prop :=
  (∃ b64 txt, p.messages =
    [ { role := "user",
        content := MsgContent.parts [
          ContentPart.imageUrl ("data:image/jpeg;base64," ++ b64),
          ContentPart.text txt ] } ]) ∧
  p.extra = cfg.samplingConfig

/-- A successful response carrying one choice with the given caption. -/
def okResp (cap : String) : HttpResponse :=
  { status := 200, jsonBody := some { choices := some [{ content := some cap }] } }

def wUp : String := "Describe the picture briefly."

def wSt : ThreadSt := initSt wUp

def wCfgPlain : BatchCfg :=
  initThread ("http://127.0.0.1:5000") [] false ("") (".txt") (".caption")

def c1envA : ImageEnv :=
  { path := "d/a.jpg", tagFile := none, imageData := none, response := none,
    writeOk := true, emitFail := none }

def c1envB : ImageEnv :=
  { path := "d/b.jpg", tagFile := none, imageData := some ("QUJD"),
    response := some { status := 500, jsonBody := none }, writeOk := true, emitFail := none }

def c2resp : HttpResponse := { status := 500, jsonBody := none }

def c2env : ImageEnv :=
  { path := "d/a.jpg", tagFile := none, imageData := some ("QUJD"),
    response := some c2resp, writeOk := true, emitFail := none }

def c3env : ImageEnv :=
  { path := "d/a.jpg", tagFile := none, imageData := none, response := none,
    writeOk := true, emitFail := none }

def c4cfg : BatchCfg :=
  initThread ("http://127.0.0.1:5000") [] false (" P ") (".txt") (".caption")

def c4envBadWrite : ImageEnv :=
  { path := "d/a.jpg", tagFile := none, imageData := some ("QUJD"),
    response := some (okResp ("C")), writeOk := false, emitFail := none }

def c4envOk : ImageEnv :=
  { path := "d/a.jpg", tagFile := none, imageData := some ("QUJD"),
    response := some (okResp ("C")), writeOk := true, emitFail := none }

def c5cfg : BatchCfg :=
  initThread ("http://127.0.0.1:5000") [] true ("") (".txt") (".caption")

def c5env : ImageEnv :=
  { path := "d/a.jpg", tagFile := some (some ("  1girl, solo\n")),
    imageData := some ("QUJD"), response := some (okResp ("C")),
    writeOk := true, emitFail := none }

def c5envBadTag : ImageEnv :=
  { path := "d/a.jpg", tagFile := some none, imageData := some ("QUJD"),
    response := some (okResp ("C")), writeOk := true, emitFail := none }

def c6env : ImageEnv :=
  { path := "d/a.jpg", tagFile := none, imageData := some ("QUJD"),
    response := some (okResp ("C")), writeOk := true, emitFail := none }

def c7env : ImageEnv :=
  { path := "d/a.jpg", tagFile := none, imageData := some ("QUJD"),
    response := some { status := 500, jsonBody := none }, writeOk := true,
    emitFail := some ("boom") }

def c8cfg : BatchCfg :=
  initThread ("http://h/v1/chat/completions") [] false ("") (".txt") (".caption")

def c8env : ImageEnv :=
  { path := "d/a.jpg", tagFile := none, imageData := some ("QUJD"),
    response := some { status := 500, jsonBody := none }, writeOk := true, emitFail := none }

theorem processImage_eq (cfg : BatchCfg) (total i : Nat) (e : ImageEnv) (st : ThreadSt) :
    processImage cfg total i e st =
      (stepEvs cfg total i e st.userPrompt,
       { userPrompt := st.userPrompt, results := stepResults cfg e st.results },
       stepCaught e) := by
  rcases e with ⟨path, tagFile, imageData, response, writeOk, emitFail⟩
  cases imageData with
  | none =>
    simp [processImage, stepEvs, stepResults, stepCaption, respCaption, stepCaught]
  | some b64 =>
    cases response with
    | none =>
      simp [processImage, stepEvs, stepResults, stepCaption, respCaption, stepCaught]
    | some resp =>
      by_cases hs : resp.status = 200
      · cases hj : resp.jsonBody with
        | none =>
          simp [processImage, stepEvs, stepResults, stepCaption, respCaption, stepCaught,
            hs, hj]
        | some body =>
          cases hc : body.choices with
          | none =>
            simp [processImage, stepEvs, stepResults, stepCaption, respCaption, stepCaught,
              hs, hj, hc]
          | some l =>
            cases l with
            | nil =>
              simp [processImage, stepEvs, stepResults, stepCaption, respCaption,
                stepCaught, hs, hj, hc]
            | cons c tl =>
              cases hcc : c.content with
              | none =>
                simp [processImage, stepEvs, stepResults, stepCaption, respCaption,
                  stepCaught, hs, hj, hc, hcc]
              | some cap0 =>
                cases writeOk <;>
                  simp [processImage, stepEvs, stepResults, stepCaption, respCaption,
                    stepCaught, hs, hj, hc, hcc]
      · simp [processImage, stepEvs, stepResults, stepCaption, respCaption, stepCaught, hs]

theorem evWrites_append (a b : List Ev) : evWrites (a ++ b) = evWrites a ++ evWrites b := by
  simp [evWrites, List.filterMap_append]

theorem evProgress_append (a b : List Ev) :
    evProgress (a ++ b) = evProgress a ++ evProgress b := by
  simp [evProgress, List.filterMap_append]

theorem evReqUrls_append (a b : List Ev) :
    evReqUrls (a ++ b) = evReqUrls a ++ evReqUrls b := by
  simp [evReqUrls, List.filterMap_append]

theorem evReqPayloads_append (a b : List Ev) :
    evReqPayloads (a ++ b) = evReqPayloads a ++ evReqPayloads b := by
  simp [evReqPayloads, List.filterMap_append]

theorem evErrors_append (a b : List Ev) : evErrors (a ++ b) = evErrors a ++ evErrors b := by
  simp [evErrors, List.filterMap_append]

theorem evFinished_append (a b : List Ev) :
    evFinished (a ++ b) = evFinished a ++ evFinished b := by
  simp [evFinished, List.filterMap_append]

theorem evReqTexts_append (a b : List Ev) :
    evReqTexts (a ++ b) = evReqTexts a ++ evReqTexts b := by
  simp [evReqTexts, List.filterMap_append]

theorem stepCaption_of_imageData_none (cfg : BatchCfg) (e : ImageEnv)
    (h : e.imageData = none) : stepCaption cfg e = none := by
  simp [stepCaption, respCaption, h]

theorem evWrites_stepEvs (cfg : BatchCfg) (total i : Nat) (e : ImageEnv) (up : String)
    (hw : e.writeOk = true) :
    evWrites (stepEvs cfg total i e up) =
      match stepCaption cfg e with
      | some v => [(capPath cfg e, v)]
      | none => [] := by
  cases hi : e.imageData with
  | none => simp [stepEvs, hi, stepCaption_of_imageData_none cfg e hi, evWrites]
  | some b64 =>
    cases hsc : stepCaption cfg e <;> simp [stepEvs, hi, hsc, evWrites, hw]

theorem evWrites_stepEvs_none (cfg : BatchCfg) (total i : Nat) (e : ImageEnv) (up : String)
    (h : stepCaption cfg e = none) : evWrites (stepEvs cfg total i e up) = [] := by
  cases hi : e.imageData <;> simp [stepEvs, hi, h, evWrites]

theorem evProgress_stepEvs (cfg : BatchCfg) (total i : Nat) (e : ImageEnv) (up : String) :
    evProgress (stepEvs cfg total i e up) = [] := by
  cases hi : e.imageData with
  | none => simp [stepEvs, hi, evProgress]
  | some b64 =>
    cases hsc : stepCaption cfg e <;> cases hw : e.writeOk <;>
      simp [stepEvs, hi, hsc, hw, evProgress]

theorem evErrors_stepEvs (cfg : BatchCfg) (total i : Nat) (e : ImageEnv) (up : String) :
    evErrors (stepEvs cfg total i e up) = [] := by
  cases hi : e.imageData with
  | none => simp [stepEvs, hi, evErrors]
  | some b64 =>
    cases hsc : stepCaption cfg e <;> cases hw : e.writeOk <;>
      simp [stepEvs, hi, hsc, hw, evErrors]

theorem evFinished_stepEvs (cfg : BatchCfg) (total i : Nat) (e : ImageEnv) (up : String) :
    evFinished (stepEvs cfg total i e up) = [] := by
  cases hi : e.imageData with
  | none => simp [stepEvs, hi, evFinished]
  | some b64 =>
    cases hsc : stepCaption cfg e <;> cases hw : e.writeOk <;>
      simp [stepEvs, hi, hsc, hw, evFinished]

theorem evReqUrls_stepEvs (cfg : BatchCfg) (total i : Nat) (e : ImageEnv) (up : String) :
    evReqUrls (stepEvs cfg total i e up) =
      match e.imageData with
      | some _ => [requestUrl cfg]
      | none => [] := by
  cases hi : e.imageData with
  | none => simp [stepEvs, hi, evReqUrls]
  | some b64 =>
    cases hsc : stepCaption cfg e <;> cases hw : e.writeOk <;>
      simp [stepEvs, hi, hsc, hw, evReqUrls]

theorem payloadTexts_mkPayload (cfg : BatchCfg) (i total : Nat) (e : ImageEnv)
    (prompt b64 : String) :
    payloadTexts (mkPayload cfg i total e prompt b64) = [prompt] := by
  simp [payloadTexts, mkPayload, partText]

theorem evReqTexts_stepEvs (cfg : BatchCfg) (total i : Nat) (e : ImageEnv) (up : String) :
    evReqTexts (stepEvs cfg total i e up) =
      match e.imageData with
      | some _ => [promptFor up cfg e]
      | none => [] := by
  cases hi : e.imageData with
  | none => simp [stepEvs, hi, evReqTexts]
  | some b64 =>
    cases hsc : stepCaption cfg e <;> cases hw : e.writeOk <;>
      simp [stepEvs, hi, hsc, hw, evReqTexts, payloadTexts_mkPayload]

theorem evReqPayloads_stepEvs (cfg : BatchCfg) (total i : Nat) (e : ImageEnv)
    (up b64 : String) (hb : e.imageData = some b64) :
    evReqPayloads (stepEvs cfg total i e up) =
      [mkPayload cfg i total e (promptFor up cfg e) b64] := by
  cases hsc : stepCaption cfg e <;> cases hw : e.writeOk <;>
    simp [stepEvs, hb, hsc, hw, evReqPayloads]

theorem runFrom_userPrompt (cfg : BatchCfg) (total : Nat) :
    ∀ (envs : List ImageEnv) (i : Nat) (st : ThreadSt),
      ((runFrom cfg total i envs st).2.1).userPrompt = st.userPrompt := by
  intro envs
  induction envs with
  | nil => intro i st; rfl
  | cons e rest ih =>
    intro i st
    simp only [runFrom, processImage_eq]
    cases hc : stepCaught e with
    | true => simpa using ih (i + 1) _
    | false =>
      cases he : e.emitFail with
      | some msg => simp
      | none => simpa using ih (i + 1) _

theorem evErrors_progress_cons (i t : Nat) (l : List Ev) :
    evErrors (Ev.progress i t :: l) = evErrors l := by
  simp [evErrors]

theorem evFinished_progress_cons (i t : Nat) (l : List Ev) :
    evFinished (Ev.progress i t :: l) = evFinished l := by
  simp [evFinished]

theorem evWrites_progress_cons (i t : Nat) (l : List Ev) :
    evWrites (Ev.progress i t :: l) = evWrites l := by
  simp [evWrites]

theorem evReqUrls_progress_cons (i t : Nat) (l : List Ev) :
    evReqUrls (Ev.progress i t :: l) = evReqUrls l := by
  simp [evReqUrls]

theorem evReqTexts_progress_cons (i t : Nat) (l : List Ev) :
    evReqTexts (Ev.progress i t :: l) = evReqTexts l := by
  simp [evReqTexts]

theorem evProgress_progress_cons (i t : Nat) (l : List Ev) :
    evProgress (Ev.progress i t :: l) = (i, t) :: evProgress l := by
  simp [evProgress]

theorem runFrom_noTerminal (cfg : BatchCfg) (total : Nat) :
    ∀ (envs : List ImageEnv) (i : Nat) (st : ThreadSt),
      evErrors (runFrom cfg total i envs st).1 = [] ∧
      evFinished (runFrom cfg total i envs st).1 = [] := by
  intro envs
  induction envs with
  | nil => intro i st; exact ⟨rfl, rfl⟩
  | cons e rest ih =>
    intro i st
    simp only [runFrom, processImage_eq]
    cases hc : stepCaught e with
    | true =>
      simp [evErrors_append, evFinished_append, evErrors_stepEvs, evFinished_stepEvs,
        (ih (i + 1) _).1, (ih (i + 1) _).2]
    | false =>
      cases he : e.emitFail with
      | some msg => simp [evErrors_stepEvs, evFinished_stepEvs]
      | none =>
        have h1 := ih (i + 1) { userPrompt := st.userPrompt, results := stepResults cfg e st.results }
        simp [evErrors_append, evFinished_append, evErrors_stepEvs, evFinished_stepEvs,
          evErrors_progress_cons, evFinished_progress_cons, h1.1, h1.2]

theorem runFrom_clean (cfg : BatchCfg) (total : Nat) :
    ∀ (envs : List ImageEnv) (i : Nat) (st : ThreadSt),
      (∀ x ∈ envs, x.emitFail = none) →
      runFrom cfg total i envs st =
        (traceOf cfg total i st.userPrompt envs,
         { userPrompt := st.userPrompt, results := foldResults cfg envs st.results },
         none) := by
  intro envs
  induction envs with
  | nil => intro i st _; rfl
  | cons e rest ih =>
    intro i st hnf
    have he : e.emitFail = none := hnf e (by simp)
    have hrest : ∀ x ∈ rest, x.emitFail = none := fun x hx => hnf x (by simp [hx])
    have ihr := ih (i + 1) { userPrompt := st.userPrompt, results := stepResults cfg e st.results } hrest
    simp only [runFrom, processImage_eq]
    cases hc : stepCaught e with
    | true => simp [ihr, traceOf, foldResults, hc]
    | false => simp [he, ihr, traceOf, foldResults, hc]

theorem evWrites_traceOf (cfg : BatchCfg) (total : Nat) :
    ∀ (envs : List ImageEnv) (i : Nat) (up : String),
      (∀ x ∈ envs, x.writeOk = true) →
      evWrites (traceOf cfg total i up envs) = writesOf cfg envs := by
  intro envs
  induction envs with
  | nil => intro i up _; rfl
  | cons e rest ih =>
    intro i up hw
    have hwe : e.writeOk = true := hw e (by simp)
    have ihr := ih (i + 1) up (fun x hx => hw x (by simp [hx]))
    cases hc : stepCaught e with
    | true =>
      simp only [traceOf, hc, if_pos, evWrites_append, ihr, evWrites_stepEvs cfg total i e up hwe]
      cases hsc : stepCaption cfg e <;> simp [writesOf, hsc, List.filterMap_cons]
    | false =>
      simp only [traceOf, hc, evWrites_append, evWrites_progress_cons, ihr, if_neg,
        Bool.false_eq_true, not_false_iff, evWrites_stepEvs cfg total i e up hwe]
      cases hsc : stepCaption cfg e <;> simp [writesOf, hsc, List.filterMap_cons, ihr]

theorem evReqTexts_traceOf (cfg : BatchCfg) (total : Nat) :
    ∀ (envs : List ImageEnv) (i : Nat) (up : String),
      evReqTexts (traceOf cfg total i up envs) =
        envs.filterMap (fun e => e.imageData.map (fun _ => promptFor up cfg e)) := by
  intro envs
  induction envs with
  | nil => intro i up; rfl
  | cons e rest ih =>
    intro i up
    have ihr := ih (i + 1) up
    cases hc : stepCaught e with
    | true =>
      simp only [traceOf, hc, if_pos, evReqTexts_append, ihr, evReqTexts_stepEvs]
      cases hi : e.imageData <;> simp [hi, List.filterMap_cons]
    | false =>
      simp only [traceOf, hc, evReqTexts_append, evReqTexts_progress_cons, ihr, if_neg,
        Bool.false_eq_true, not_false_iff, evReqTexts_stepEvs]
      cases hi : e.imageData <;> simp [hi, List.filterMap_cons, ihr]

theorem dlookup_dictSet_self (k v : String) :
    ∀ (d : List (String × String)), dlookup (dictSet d k v) k = some v := by
  intro d
  induction d with
  | nil => simp [dictSet, dlookup]
  | cons p t ih =>
    rcases p with ⟨a, b⟩
    by_cases ha : a = k
    · simp [dictSet, ha, dlookup]
    · simp [dictSet, ha, dlookup, ih]

theorem dlookup_dictSet_ne (k v k2 : String) (hne : k2 ≠ k) :
    ∀ (d : List (String × String)), dlookup (dictSet d k v) k2 = dlookup d k2 := by
  intro d
  induction d with
  | nil =>
    have : ¬(k = k2) := fun h => hne h.symm
    simp [dictSet, dlookup, this]
  | cons p t ih =>
    rcases p with ⟨a, b⟩
    by_cases ha : a = k
    · subst ha
      have : ¬(a = k2) := fun h => hne h.symm
      simp [dictSet, dlookup, this]
    · by_cases ha2 : a = k2 <;> simp [dictSet, dlookup, ha, ha2, ih, hne]

theorem dlookup_stepResults_ne (cfg : BatchCfg) (x : ImageEnv)
    (r : List (String × String)) (k : String) (h : x.path ≠ k) :
    dlookup (stepResults cfg x r) k = dlookup r k := by
  unfold stepResults
  cases hsc : stepCaption cfg x with
  | none => rfl
  | some v => exact dlookup_dictSet_ne x.path v k (fun hk => h hk.symm) r

theorem foldResults_notMem (cfg : BatchCfg) :
    ∀ (envs : List ImageEnv) (r : List (String × String)) (k : String),
      (∀ x ∈ envs, x.path ≠ k) →
      dlookup (foldResults cfg envs r) k = dlookup r k := by
  intro envs
  induction envs with
  | nil => intro r k _; rfl
  | cons x rest ih =>
    intro r k h
    have hx : x.path ≠ k := h x (by simp)
    rw [foldResults, ih (stepResults cfg x r) k (fun y hy => h y (by simp [hy])),
      dlookup_stepResults_ne cfg x r k hx]

theorem foldResults_lookup (cfg : BatchCfg) :
    ∀ (envs : List ImageEnv) (r : List (String × String)) (e : ImageEnv),
      e ∈ envs → (envs.map (fun x => x.path)).Nodup →
      dlookup (foldResults cfg envs r) e.path =
        match stepCaption cfg e with
        | some v => some v
        | none => dlookup r e.path := by
  intro envs
  induction envs with
  | nil => intro r e he _; simp at he
  | cons x rest ih =>
    intro r e he hnd
    rw [List.map_cons, List.nodup_cons] at hnd
    rcases List.mem_cons.mp he with he1 | he2
    · subst he1
      have hrest : ∀ y ∈ rest, y.path ≠ e.path := by
        intro y hy hp
        exact hnd.1 (hp ▸ List.mem_map_of_mem (fun z => z.path) hy)
      rw [foldResults, foldResults_notMem cfg rest (stepResults cfg e r) e.path hrest]
      unfold stepResults
      cases hsc : stepCaption cfg e with
      | none => rfl
      | some v => simp [dlookup_dictSet_self]
    · have hxp : x.path ≠ e.path := by
        intro hp
        exact hnd.1 (hp ▸ List.mem_map_of_mem (fun z => z.path) he2)
      rw [foldResults, ih (stepResults cfg x r) e he2 hnd.2]
      cases hsc : stepCaption cfg e with
      | none => simp [hsc, dlookup_stepResults_ne cfg x r e.path hxp]
      | some v => simp [hsc]

theorem filter_none_of_all {α : Type} (p : α → Bool) :
    ∀ (l : List α), (∀ a ∈ l, p a = false) → l.filter p = [] := by
  intro l
  induction l with
  | nil => intro _; rfl
  | cons a t ih =>
    intro h
    simp [List.filter_cons, h a (by simp), ih (fun x hx => h x (by simp [hx]))]

theorem writesOf_mem (cfg : BatchCfg) :
    ∀ (envs : List ImageEnv) (w : String × String),
      w ∈ writesOf cfg envs → ∃ x ∈ envs, w.1 = capPath cfg x := by
  intro envs w hw
  rcases List.mem_filterMap.mp hw with ⟨x, hx, hfx⟩
  refine ⟨x, hx, ?_⟩
  cases hsc : stepCaption cfg x with
  | none => rw [hsc] at hfx; simp at hfx
  | some v =>
    rw [hsc] at hfx
    simp only [Option.map_some', Option.some.injEq] at hfx
    subst hfx
    rfl

theorem writesOf_filter (cfg : BatchCfg) :
    ∀ (envs : List ImageEnv) (e : ImageEnv),
      e ∈ envs → (envs.map (fun x => capPath cfg x)).Nodup →
      (writesOf cfg envs).filter (fun w => w.1 == capPath cfg e) =
        match stepCaption cfg e with
        | some v => [(capPath cfg e, v)]
        | none => [] := by
  intro envs
  induction envs with
  | nil => intro e he _; simp at he
  | cons x rest ih =>
    intro e he hnd
    rw [List.map_cons, List.nodup_cons] at hnd
    rcases List.mem_cons.mp he with he1 | he2
    · subst he1
      have hrest : (writesOf cfg rest).filter (fun w => w.1 == capPath cfg e) = [] := by
        apply filter_none_of_all
        intro w hw
        rcases writesOf_mem cfg rest w hw with ⟨y, hy, hyp⟩
        have : capPath cfg y ≠ capPath cfg e := by
          intro hp
          exact hnd.1 (hp ▸ List.mem_map_of_mem (fun z => capPath cfg z) hy)
        simp [hyp, this]
      cases hsc : stepCaption cfg e with
      | none => simpa [writesOf, List.filterMap_cons, hsc] using hrest
      | some v =>
        simpa [writesOf, List.filterMap_cons, hsc, List.filter_cons] using hrest
    · have hxp : capPath cfg x ≠ capPath cfg e := by
        intro hp
        exact hnd.1 (hp ▸ List.mem_map_of_mem (fun z => capPath cfg z) he2)
      have ihr := ih e he2 hnd.2
      cases hsx : stepCaption cfg x with
      | none => simpa [writesOf, List.filterMap_cons, hsx] using ihr
      | some v =>
        simpa [writesOf, List.filterMap_cons, hsx, List.filter_cons, hxp] using ihr

theorem runFrom_fatal (cfg : BatchCfg) (total : Nat) (e : ImageEnv)
    (rest : List ImageEnv) (msg : String)
    (he : e.emitFail = some msg) (hnc : stepCaught e = false) :
    ∀ (pre : List ImageEnv) (i : Nat) (st : ThreadSt),
      (∀ x ∈ pre, x.emitFail = none) →
      (runFrom cfg total i (pre ++ e :: rest) st).2.2 = some msg ∧
      ∀ j t, (j, t) ∈ evProgress (runFrom cfg total i (pre ++ e :: rest) st).1 →
        j < i + pre.length := by
  intro pre
  induction pre with
  | nil =>
    intro i st _
    simp only [List.nil_append, runFrom, processImage_eq, hnc, he]
    constructor
    · simp
    · intro j t hj
      simp [evProgress_stepEvs] at hj
  | cons x pre ih =>
    intro i st hpre
    have hx : x.emitFail = none := hpre x (by simp)
    have ihr := ih (i + 1) { userPrompt := st.userPrompt, results := stepResults cfg x st.results }
      (fun y hy => hpre y (by simp [hy]))
    simp only [List.cons_append, runFrom, processImage_eq]
    cases hc : stepCaught x with
    | true =>
      refine ⟨by simpa using ihr.1, ?_⟩
      intro j t hj
      simp only [if_true, evProgress_append, evProgress_stepEvs, List.nil_append] at hj
      have := ihr.2 j t (by simpa using hj)
      simp only [List.length_cons]
      omega
    | false =>
      rw [hx]
      refine ⟨by simpa using ihr.1, ?_⟩
      intro j t hj
      simp only [Bool.false_eq_true, if_false, evProgress_append, evProgress_stepEvs,
        evProgress_progress_cons, List.nil_append, List.mem_cons, Prod.mk.injEq] at hj
      rcases hj with ⟨hj1, hj2⟩ | hj
      · simp only [List.length_cons]
        omega
      · have := ihr.2 j t (by simpa using hj)
        simp only [List.length_cons]
        omega

/-- C10: given an empty input list the run performs no iteration and emits
    exactly the finished signal carrying the empty results mapping: zero
    progress events, no error, no request, no sidecar write. -/
theorem C10_empty (cfg : BatchCfg) (up : String) :
    runBatch cfg up [] = [Ev.finished []] := by
  rfl

/-- C1: the claim fails on the code.  With two input images where reading
    the first raises, the continue statement of the per-image handler
    skips the progress emission for that image, so the observed progress
    events are [(2, 2)] and not the gap-free sequence [(1, 2), (2, 2)]
    the claim requires. -/
theorem C1_progress_gap :
    evProgress (runBatch wCfgPlain wUp [c1envA, c1envB]) = [(2, 2)] ∧
    evProgress (runBatch wCfgPlain wUp [c1envA, c1envB]) ≠ [(1, 2), (2, 2)] := by
  constructor
  · rfl
  · decide

/-- C3: when reading the image file raises, the per-image handler catches:
    the iteration contributes no request, no result entry, no sidecar
    write and no event at all, and the run on that image followed by the
    rest equals the run on the rest alone, so one bad image never aborts
    the batch nor prevents any later image from being processed. -/
theorem C3_skip (cfg : BatchCfg) (total i : Nat) (e : ImageEnv) (rest : List ImageEnv)
    (st : ThreadSt) (h : e.imageData = none) :
    runFrom cfg total i (e :: rest) st = runFrom cfg total (i + 1) rest st := by
  have hcaught : stepCaught e = true := by simp [stepCaught, h]
  have hevs : stepEvs cfg total i e st.userPrompt = [] := by simp [stepEvs, h]
  have hres : stepResults cfg e st.results = st.results := by
    simp [stepResults, stepCaption_of_imageData_none cfg e h]
  simp only [runFrom, processImage_eq, hcaught, if_true, hevs, hres, List.nil_append]

theorem C3_skip_witness :
    c3env.imageData = none ∧
    runFrom wCfgPlain 1 1 [c3env] wSt = runFrom wCfgPlain 1 2 [] wSt :=
  ⟨rfl, C3_skip wCfgPlain 1 1 c3env [] wSt rfl⟩

/-- C2: when the endpoint answers with a non-200 status, or a 200 whose
    body is not valid JSON, or a 200 whose choices list is absent or
    empty, the image contributes no result entry and no sidecar write,
    its request is sent, and the loop state after it is exactly the state
    of the loop on the remaining images, which are still processed. -/
theorem C2_skip (cfg : BatchCfg) (total i : Nat) (e : ImageEnv) (rest : List ImageEnv)
    (st : ThreadSt) (b64 : String) (resp : HttpResponse)
    (hb : e.imageData = some b64) (hr : e.response = some resp)
    (hfail : respNoCaption resp) (hnf : e.emitFail = none) :
    (runFrom cfg total i (e :: rest) st).2 = (runFrom cfg total (i + 1) rest st).2 ∧
    evWrites (runFrom cfg total i (e :: rest) st).1 =
      evWrites (runFrom cfg total (i + 1) rest st).1 ∧
    evReqUrls (runFrom cfg total i (e :: rest) st).1 =
      requestUrl cfg :: evReqUrls (runFrom cfg total (i + 1) rest st).1 := by
  have hcap : respCaption e = none := by
    rcases hfail with hs | hj | ⟨b, hb2, hcc⟩
    · simp [respCaption, hb, hr, hs]
    · simp [respCaption, hb, hr, hj]
    · rcases hcc with hcc | hcc <;> simp [respCaption, hb, hr, hb2, hcc]
  have hsc : stepCaption cfg e = none := by simp [stepCaption, hcap]
  have hres : stepResults cfg e st.results = st.results := by simp [stepResults, hsc]
  have hwr : evWrites (stepEvs cfg total i e st.userPrompt) = [] :=
    evWrites_stepEvs_none cfg total i e st.userPrompt hsc
  have hurl : evReqUrls (stepEvs cfg total i e st.userPrompt) = [requestUrl cfg] := by
    rw [evReqUrls_stepEvs]
    simp [hb]
  simp only [runFrom, processImage_eq, hres]
  cases hcg : stepCaught e with
  | true =>
    refine ⟨rfl, ?_, ?_⟩
    · simp [evWrites_append, hwr]
    · simp [evReqUrls_append, hurl]
  | false =>
    rw [hnf]
    refine ⟨rfl, ?_, ?_⟩
    · simp [evWrites_append, evWrites_progress_cons, hwr]
    · simp [evReqUrls_append, evReqUrls_progress_cons, hurl]

theorem C2_skip_witness :
    c2env.imageData = some ("QUJD") ∧ c2env.response = some c2resp ∧
    respNoCaption c2resp ∧ c2env.emitFail = none ∧
    ((runFrom wCfgPlain 1 1 [c2env] wSt).2 = (runFrom wCfgPlain 1 2 [] wSt).2 ∧
     evWrites (runFrom wCfgPlain 1 1 [c2env] wSt).1 =
       evWrites (runFrom wCfgPlain 1 2 [] wSt).1 ∧
     evReqUrls (runFrom wCfgPlain 1 1 [c2env] wSt).1 =
       requestUrl wCfgPlain :: evReqUrls (runFrom wCfgPlain 1 2 [] wSt).1) :=
  ⟨rfl, rfl, Or.inl (by decide), rfl,
    C2_skip wCfgPlain 1 1 c2env [] wSt ("QUJD") c2resp rfl rfl (Or.inl (by decide)) rfl⟩

/-- C5: with use_tags set and a readable tag sidecar the text part of the
    request is the base prompt, the fixed booru sentence with its one
    leading space, a space, the tags marker, a newline, the stripped tag
    text, a newline and the closing marker; when reading the tag file
    raises, the run is identical to the run on the same image with no tag
    sidecar at all, so the image is processed with the plain prompt and
    the batch continues. -/
theorem C5_tags (cfg : BatchCfg) (total i : Nat) (e : ImageEnv) (rest : List ImageEnv)
    (st : ThreadSt) (b64 : String)
    (hu : cfg.useTags = true) (hb : e.imageData = some b64) :
    (∀ t, e.tagFile = some (some t) →
      evReqTexts (processImage cfg total i e st).1 =
        [st.userPrompt ++
          " Also here are booru tags for better understanding of the picture, you can use them as reference."
          ++ " <tags>\n" ++ pyStrip t ++ "\n</tags>"]) ∧
    (e.tagFile = some none →
      runFrom cfg total i (e :: rest) st =
        runFrom cfg total i ({ e with tagFile := none } :: rest) st) := by
  constructor
  · intro t ht
    rw [processImage_eq]
    simp [evReqTexts_stepEvs, hb, promptFor, hu, ht, tagAug, String.append_assoc]
  · intro ht
    have hpe : processImage cfg total i e st =
        processImage cfg total i { e with tagFile := none } st := by
      rcases e with ⟨p, tf, idata, resp, w, ef⟩
      simp only at ht
      subst ht
      simp [processImage, promptFor, mkPayload, capPath]
    have hef : ({ e with tagFile := none } : ImageEnv).emitFail = e.emitFail := rfl
    simp only [runFrom, hpe, hef]

theorem C5_tags_witness :
    c5cfg.useTags = true ∧ c5env.imageData = some ("QUJD") ∧
    c5env.tagFile = some (some ("  1girl, solo\n")) ∧
    c5envBadTag.tagFile = some none ∧
    evReqTexts (processImage c5cfg 1 1 c5env wSt).1 =
      [wSt.userPrompt ++
        " Also here are booru tags for better understanding of the picture, you can use them as reference."
        ++ " <tags>\n" ++ pyStrip ("  1girl, solo\n") ++ "\n</tags>"] ∧
    runFrom c5cfg 1 1 [c5envBadTag] wSt =
      runFrom c5cfg 1 1 [{ c5envBadTag with tagFile := none }] wSt :=
  ⟨rfl, rfl, rfl, rfl,
    (C5_tags c5cfg 1 1 c5env [] wSt ("QUJD") rfl rfl).1 ("  1girl, solo\n") rfl,
    (C5_tags c5cfg 1 1 c5envBadTag [] wSt ("QUJD") rfl rfl).2 rfl⟩

/-- C6 counterexample: the claim fails on the code.  The request body of a
    concrete run does not consist of the user message alone merged with
    the sampling configuration: its messages list also carries a leading
    system message, so no pair of image payload and text matches it. -/
theorem C6_cex :
    ¬ ∀ p ∈ evReqPayloads (runBatch wCfgPlain wUp [c6env]), c6ClaimBody wCfgPlain p := by
  intro h
  obtain ⟨⟨b64, txt, hmsg⟩, -⟩ :=
    h (mkPayload wCfgPlain 1 1 c6env (promptFor wUp wCfgPlain c6env) ("QUJD")) (by decide)
  simp [mkPayload] at hmsg

/-- C6 amended: every request body of the batch pipeline consists of
    exactly two messages, a system message announcing the position and
    basename of the image followed by the user message whose content is
    the two-part array of the base64 data URL and the prompt text, with
    the sampling configuration merged at top level, and nothing else. -/
theorem C6_amended (cfg : BatchCfg) (total i : Nat) (e : ImageEnv) (st : ThreadSt)
    (b64 : String) (hb : e.imageData = some b64) :
    evReqPayloads (processImage cfg total i e st).1 =
      [ { messages := [
            { role := "system",
              content := MsgContent.str
                ("Processing image " ++ toString i ++ " of " ++ toString total ++ ": "
                  ++ pyBasename e.path) },
            { role := "user",
              content := MsgContent.parts [
                ContentPart.imageUrl ("data:image/jpeg;base64," ++ b64),
                ContentPart.text (promptFor st.userPrompt cfg e) ] } ],
          extra := cfg.samplingConfig } ] := by
  rw [processImage_eq]
  simp [evReqPayloads_stepEvs cfg total i e st.userPrompt b64 hb, mkPayload]

theorem C6_amended_witness :
    c6env.imageData = some ("QUJD") ∧
    evReqPayloads (processImage wCfgPlain 1 1 c6env wSt).1 =
      [ { messages := [
            { role := "system",
              content := MsgContent.str
                ("Processing image " ++ toString 1 ++ " of " ++ toString 1 ++ ": "
                  ++ pyBasename c6env.path) },
            { role := "user",
              content := MsgContent.parts [
                ContentPart.imageUrl ("data:image/jpeg;base64," ++ "QUJD"),
                ContentPart.text (promptFor wSt.userPrompt wCfgPlain c6env) ] } ],
          extra := wCfgPlain.samplingConfig } ] :=
  ⟨rfl, C6_amended wCfgPlain 1 1 c6env wSt ("QUJD") rfl⟩

/-- C8 counterexample: the claim fails on the code.  The batch pipeline
    appends the chat-completions suffix unconditionally after stripping
    trailing slashes, so a base URL that already ends with the suffix gets
    it duplicated, unlike the normalization the claim describes. -/
theorem C8_cex :
    evReqUrls (runBatch c8cfg wUp [c8env]) =
      ["http://h/v1/chat/completions/v1/chat/completions"] ∧
    specRequestUrl (c8cfg.apiUrl) = "http://h/v1/chat/completions" ∧
    evReqUrls (runBatch c8cfg wUp [c8env]) ≠ [specRequestUrl (c8cfg.apiUrl)] := by
  refine ⟨by decide, by decide, by decide⟩

/-- C8 amended: every captioning request of the batch pipeline goes to the
    configured base URL with trailing slashes stripped and the suffix
    /v1/chat/completions appended unconditionally, so the suffix is
    duplicated when the base URL already ends with it. -/
theorem C8_amended (cfg : BatchCfg) (total i : Nat) (e : ImageEnv) (st : ThreadSt)
    (b64 : String) (hb : e.imageData = some b64) :
    evReqUrls (processImage cfg total i e st).1 =
      [rstripSlash cfg.apiUrl ++ "/v1/chat/completions"] := by
  rw [processImage_eq]
  simp [evReqUrls_stepEvs, hb, requestUrl]

theorem C8_amended_witness :
    c8env.imageData = some ("QUJD") ∧
    evReqUrls (processImage c8cfg 1 1 c8env wSt).1 =
      [rstripSlash c8cfg.apiUrl ++ "/v1/chat/completions"] :=
  ⟨rfl, C8_amended c8cfg 1 1 c8env wSt ("QUJD") rfl⟩

/-- C9: over a whole loop that completes, the prompt text sent for each
    image is computed from the stored base user prompt and the tag state
    of that image alone, so augmentation never carries over to a later
    image, and the stored user prompt is unchanged when the loop ends. -/
theorem C9_fresh (cfg : BatchCfg) (total i : Nat) (envs : List ImageEnv) (st : ThreadSt)
    (hnf : ∀ x ∈ envs, x.emitFail = none) :
    evReqTexts (runFrom cfg total i envs st).1 =
      envs.filterMap (fun e => e.imageData.map (fun _ => promptFor st.userPrompt cfg e)) ∧
    ((runFrom cfg total i envs st).2.1).userPrompt = st.userPrompt := by
  rw [runFrom_clean cfg total envs i st hnf]
  exact ⟨evReqTexts_traceOf cfg total envs i st.userPrompt, rfl⟩

theorem C9_fresh_witness :
    (∀ x ∈ [c5env, c6env], x.emitFail = none) ∧
    evReqTexts (runFrom c5cfg 2 1 [c5env, c6env] wSt).1 =
      [c5env, c6env].filterMap
        (fun e => e.imageData.map (fun _ => promptFor wSt.userPrompt c5cfg e)) ∧
    ((runFrom c5cfg 2 1 [c5env, c6env] wSt).2.1).userPrompt = wSt.userPrompt :=
  ⟨by decide,
    (C9_fresh c5cfg 2 1 [c5env, c6env] wSt (by decide)).1,
    (C9_fresh c5cfg 2 1 [c5env, c6env] wSt (by decide)).2⟩

/-- C7: an exception escaping the per-image boundary (the progress
    emission raising, the only per-iteration statement outside the
    per-image try block) aborts the batch: the error signal carries its
    message, no finished signal is emitted, and every progress event of
    the run belongs to an image before the point of failure. -/
theorem C7_fatal (cfg : BatchCfg) (up : String) (pre : List ImageEnv) (e : ImageEnv)
    (rest : List ImageEnv) (msg : String)
    (hpre : ∀ x ∈ pre, x.emitFail = none)
    (he : e.emitFail = some msg)
    (hnc : stepCaught e = false) :
    evErrors (runBatch cfg up (pre ++ e :: rest)) = [msg] ∧
    evFinished (runBatch cfg up (pre ++ e :: rest)) = [] ∧
    ∀ j t, (j, t) ∈ evProgress (runBatch cfg up (pre ++ e :: rest)) → j ≤ pre.length := by
  have hf := runFrom_fatal cfg (pre ++ e :: rest).length e rest msg he hnc pre 1 (initSt up) hpre
  have hnt := runFrom_noTerminal cfg (pre ++ e :: rest).length (pre ++ e :: rest) 1 (initSt up)
  simp only [runBatch]
  rw [hf.1]
  refine ⟨?_, ?_, ?_⟩
  · simp only [evErrors_append, hnt.1, List.nil_append]
    simp [evErrors]
  · simp only [evFinished_append, hnt.2, List.nil_append]
    simp [evFinished]
  · intro j t hj
    simp only [evProgress_append] at hj
    have hj2 : (j, t) ∈
        evProgress (runFrom cfg (pre ++ e :: rest).length 1 (pre ++ e :: rest) (initSt up)).1 := by
      have : evProgress [Ev.error msg] = [] := rfl
      rw [this, List.append_nil] at hj
      exact hj
    have := hf.2 j t hj2
    omega

theorem C7_fatal_witness :
    (∀ x ∈ ([] : List ImageEnv), x.emitFail = none) ∧
    c7env.emitFail = some ("boom") ∧ stepCaught c7env = false ∧
    evErrors (runBatch wCfgPlain wUp ([] ++ c7env :: [])) = ["boom"] ∧
    evFinished (runBatch wCfgPlain wUp ([] ++ c7env :: [])) = [] ∧
    ∀ j t, (j, t) ∈ evProgress (runBatch wCfgPlain wUp ([] ++ c7env :: [])) →
      j ≤ ([] : List ImageEnv).length :=
  ⟨by simp, rfl, by decide,
    (C7_fatal wCfgPlain wUp [] c7env [] ("boom") (by simp) rfl (by decide)).1,
    (C7_fatal wCfgPlain wUp [] c7env [] ("boom") (by simp) rfl (by decide)).2.1,
    (C7_fatal wCfgPlain wUp [] c7env [] ("boom") (by simp) rfl (by decide)).2.2⟩

/-- C4 counterexample: the claim fails on the code.  The loop records the
    caption in self.results before opening the sidecar file, so when that
    write raises the finished mapping carries an entry for the image while
    no sidecar write happened, breaking the stated equivalence. -/
theorem C4_cex : ¬ sidecarIffResult c4cfg wUp [c4envBadWrite] := by
  unfold sidecarIffResult
  decide

/-- C4 amended: a sidecar write only happens for an image with an entry in
    the final results mapping and carries exactly the mapped value, which
    is the stripped prefix, a newline and the returned caption when the
    stripped prefix is non-empty, applied once; and when every sidecar
    write of the batch succeeds the correspondence is exact in both
    directions: an entry exists exactly when the one matching write
    exists.  When a write raises after the entry is recorded, the entry
    remains with no file, so the two-sided claim holds only under
    successful writes. -/
theorem C4_amended (cfg : BatchCfg) (up : String) (envs : List ImageEnv)
    (hw : ∀ x ∈ envs, x.writeOk = true)
    (hnf : ∀ x ∈ envs, x.emitFail = none)
    (hp : (envs.map (fun x => x.path)).Nodup)
    (hc : (envs.map (fun x => capPath cfg x)).Nodup) :
    evFinished (runBatch cfg up envs) = [batchResults cfg up envs] ∧
    ∀ e ∈ envs,
      (respCaption e = none →
        dlookup (batchResults cfg up envs) e.path = none ∧
        (evWrites (runBatch cfg up envs)).filter (fun w => w.1 == capPath cfg e) = []) ∧
      (∀ c0, respCaption e = some c0 →
        dlookup (batchResults cfg up envs) e.path = some (applyPfx cfg.pfx c0) ∧
        (evWrites (runBatch cfg up envs)).filter (fun w => w.1 == capPath cfg e) =
          [(capPath cfg e, applyPfx cfg.pfx c0)]) ∧
      (cfg.pfx ≠ "" → ∀ c0, respCaption e = some c0 →
        applyPfx cfg.pfx c0 = cfg.pfx ++ "\n" ++ c0) := by
  have hclean := runFrom_clean cfg envs.length envs 1 (initSt up) hnf
  have hbr : batchResults cfg up envs = foldResults cfg envs [] := by
    unfold batchResults
    rw [hclean]
    rfl
  have htr : evFinished (traceOf cfg envs.length 1 (initSt up).userPrompt envs) = [] := by
    have hnt := (runFrom_noTerminal cfg envs.length envs 1 (initSt up)).2
    rw [hclean] at hnt
    exact hnt
  have hevw : evWrites (runBatch cfg up envs) = writesOf cfg envs := by
    simp only [runBatch, hclean]
    rw [evWrites_append]
    have h1 : evWrites [Ev.finished (foldResults cfg envs (initSt up).results)] = [] := rfl
    rw [h1, List.append_nil]
    exact evWrites_traceOf cfg envs.length envs 1 (initSt up).userPrompt hw
  constructor
  · simp only [runBatch, hclean]
    rw [evFinished_append, htr, List.nil_append, hbr]
    rfl
  · intro e he
    have hdl := foldResults_lookup cfg envs [] e he hp
    have hwf := writesOf_filter cfg envs e he hc
    refine ⟨?_, ?_, ?_⟩
    · intro hrc
      have hsc : stepCaption cfg e = none := by simp [stepCaption, hrc]
      rw [hsc] at hdl hwf
      constructor
      · rw [hbr]
        simpa [dlookup] using hdl
      · rw [hevw]
        simpa using hwf
    · intro c0 hrc
      have hsc : stepCaption cfg e = some (applyPfx cfg.pfx c0) := by
        simp [stepCaption, hrc]
      rw [hsc] at hdl hwf
      constructor
      · rw [hbr]
        simpa using hdl
      · rw [hevw]
        simpa using hwf
    · intro hpfx c0 _
      simp [applyPfx, hpfx]

theorem C4_amended_witness :
    (∀ x ∈ [c4envOk], x.writeOk = true) ∧
    (∀ x ∈ [c4envOk], x.emitFail = none) ∧
    ([c4envOk].map (fun x => x.path)).Nodup ∧
    ([c4envOk].map (fun x => capPath c4cfg x)).Nodup ∧
    (evFinished (runBatch c4cfg wUp [c4envOk]) = [batchResults c4cfg wUp [c4envOk]] ∧
     ∀ e ∈ [c4envOk],
       (respCaption e = none →
         dlookup (batchResults c4cfg wUp [c4envOk]) e.path = none ∧
         (evWrites (runBatch c4cfg wUp [c4envOk])).filter
           (fun w => w.1 == capPath c4cfg e) = []) ∧
       (∀ c0, respCaption e = some c0 →
         dlookup (batchResults c4cfg wUp [c4envOk]) e.path = some (applyPfx c4cfg.pfx c0) ∧
         (evWrites (runBatch c4cfg wUp [c4envOk])).filter
           (fun w => w.1 == capPath c4cfg e) =
           [(capPath c4cfg e, applyPfx c4cfg.pfx c0)]) ∧
       (c4cfg.pfx ≠ "" → ∀ c0, respCaption e = some c0 →
         applyPfx c4cfg.pfx c0 = c4cfg.pfx ++ "\n" ++ c0)) :=
  ⟨by decide, by decide, by decide, by decide,
    C4_amended c4cfg wUp [c4envOk] (by decide) (by decide) (by decide) (by decide)⟩
